import Mathlib

/-!
Verification of the `jules_job_manager` core components against their
natural-language specification.

The development shallowly embeds the two core modules:

* `src/storage.py` — a JSON-file-backed task store with an mtime-keyed
  in-process cache and atomic (write-temp-then-rename) persistence.
* `src/mcp_client.py` — the subprocess-backed JSON-RPC client: response
  handling of `invoke_tool`, the `stop_client` lifecycle step and the
  `use_client` context manager.
* `src/job_manager.py` — the `_validate_repository` input check.

JSON values are modelled by the inductive `JValue`; Python dictionaries
become association lists that keep insertion order, exactly as Python
dicts do.  File-system effects are made explicit: the backing file is a
`Disk` value carrying the parse outcome of its bytes together with its
modification time, and every operation that may write takes the written
file's new modification time as a parameter (the clock is external
nondeterminism).  Fallible operations return `Except PyError`, whose
constructors mirror the distinct Python exception classes raised by the
source (`KeyError`, `ValueError`, `RuntimeError`, `TimeoutError`).
-/

/-- A JSON value as produced by `json.loads`: null, booleans, numbers,
strings, arrays and objects.  Numbers are modelled as integers (every
value the repository stores or compares is an integer, a string or a
container). Object fields keep their textual order, as Python dicts do. -/
inductive JValue where
  | null
  | bool (b : Bool)
  | num (n : Int)
  | str (s : String)
  | arr (xs : List JValue)
  | obj (fields : List (String × JValue))

/-- A Python dict with string keys, in insertion order. -/
abbrev JObj := List (String × JValue)

/-- Lexicographic order on character lists by code point, Python's
comparison of strings. -/
def lexLe : List Char → List Char → Bool
  | [], _ => true
  | _ :: _, [] => false
  | a :: as, b :: bs =>
      if a.toNat < b.toNat then true
      else if b.toNat < a.toNat then false
      else lexLe as bs

/-- `a <= b` on Python strings. -/
def strLe (a b : String) : Bool :=
  lexLe a.toList b.toList

/-- Python's `str.strip()`: drop whitespace from both ends. -/
def pyStrip (s : String) : String :=
  String.mk (((s.toList.dropWhile Char.isWhitespace).reverse.dropWhile
    Char.isWhitespace).reverse)

/-- Structural equality test on JSON values (used below through
`sortJ`-normalisation so that, as in Python, the order of object keys
does not matter). -/
def JValue.beq : JValue → JValue → Bool
  | .null, .null => true
  | .bool a, .bool b => a == b
  | .num a, .num b => a == b
  | .str a, .str b => a == b
  | .arr xs, .arr ys => go xs ys
  | .obj xs, .obj ys => goF xs ys
  | _, _ => false
where
  go : List JValue → List JValue → Bool
    | [], [] => true
    | x :: xs, y :: ys => x.beq y && go xs ys
    | _, _ => false
  goF : List (String × JValue) → List (String × JValue) → Bool
    | [], [] => true
    | (k, v) :: xs, (k', v') :: ys => k == k' && v.beq v' && goF xs ys
    | _, _ => false

/-- Whether a JSON value is an object — Python's `isinstance(value, dict)`. -/
def JValue.isObj : JValue → Bool
  | .obj _ => true
  | _ => false

/-- `d[k]` as an `Option`: the value at the first occurrence of key `k`. -/
def jGet (d : JObj) (k : String) : Option JValue :=
  match d with
  | [] => none
  | (k', v) :: rest => if k' = k then some v else jGet rest k

/-- Python's `k in d` membership test on a dict. -/
def jMem (d : JObj) (k : String) : Bool :=
  (jGet d k).isSome

/-- Python's `str(value)` on the JSON values that occur as task
identifiers.  Scalars are rendered the way Python renders them
(`str` is the identity on strings); containers never occur as
identifiers, and for them this model falls back to a fixed tag rather
than reproducing Python's `repr` formatting. -/
def pyStr : JValue → String
  | .null => "None"
  | .bool b => if b then "True" else "False"
  | .num n => toString n
  | .str s => s
  | .arr _ => "<list>"
  | .obj _ => "<dict>"

mutual
/-- Recursively sort every object's fields by key, the normal form
`json.dumps(..., sort_keys=True)` serializes.  An insertion sort keeps
the definition structurally recursive. -/
def sortJ : JValue → JValue
  | .null => .null
  | .bool b => .bool b
  | .num n => .num n
  | .str s => .str s
  | .arr xs => .arr (sortJList xs)
  | .obj fs => .obj ((sortJFields fs).insertionSort fun a b => strLe a.1 b.1 = true)
def sortJList : List JValue → List JValue
  | [] => []
  | x :: xs => sortJ x :: sortJList xs
def sortJFields : List (String × JValue) → List (String × JValue)
  | [] => []
  | (k, v) :: rest => (k, sortJ v) :: sortJFields rest
end

mutual
/-- Render a JSON value as text.  Concrete whitespace and string
escaping of `json.dumps(..., indent=2)` are abstracted: the renderer is
only ever compared for equality against its own output, never parsed. -/
def renderJ : JValue → String
  | .null => "null"
  | .bool b => if b then "true" else "false"
  | .num n => toString n
  | .str s => "\"" ++ s ++ "\""
  | .arr xs => "[" ++ renderJList xs ++ "]"
  | .obj fs => "\x7b" ++ renderJFields fs ++ "\x7d"
def renderJList : List JValue → String
  | [] => ""
  | [x] => renderJ x
  | x :: xs => renderJ x ++ ", " ++ renderJList xs
def renderJFields : List (String × JValue) → String
  | [] => ""
  | [(k, v)] => "\"" ++ k ++ "\": " ++ renderJ v
  | (k, v) :: rest => "\"" ++ k ++ "\": " ++ renderJ v ++ ", " ++ renderJFields rest
end

/-- Python `==` on two task records (dicts of JSON values): equality up
to the order of object keys, at every nesting level, realised by
comparing `sortJ` normal forms. -/
def objEq (a b : JObj) : Bool :=
  JValue.beq (sortJ (.obj a)) (sortJ (.obj b))

/-- The Python exception classes the embedded code raises, kept as
distinct kinds. -/
inductive PyError where
  | keyError (msg : String)
  | valueError (msg : String)
  | runtimeError (msg : String)
  | timeoutError
  deriving DecidableEq

/-! ## Local store (`src/storage.py`) -/

/-- What the bytes of the backing file parse to: an empty/whitespace
file, a file that is not JSON, or a parsed JSON value. -/
inductive FileData where
  | blank
  | unparseable
  | parsedVal (v : JValue)

/-- The backing file on disk: absent, or its parse outcome together
with its modification time (`os.path.getmtime`). -/
structure Disk where
  file : Option (FileData × Nat)

/-- The storage manager dictionary built by `create_storage`: the
in-process cache (`cache`, `cache_mtime`, `cache_serialized`).  The
backing path and the advisory lock path are carried by the Python dict
but play no role in the data semantics; the lock file is a cooperative
marker touched and removed around writes and is not part of the
persisted content this development reasons about. -/
structure StorageManager where
  cache : Option (List (String × JObj))
  cache_mtime : Option Nat
  cache_serialized : Option String

/-- The task map held in the backing file: task id to task record. -/
abbrev TaskMap := List (String × JObj)

/-- Lookup in a task map. -/
def tGet (tasks : TaskMap) (k : String) : Option JObj :=
  match tasks with
  | [] => none
  | (k', v) :: rest => if k' = k then some v else tGet rest k

/-- `tasks[k] = v` on a Python dict: replace the value in place when the
key is present, append the pair otherwise. -/
def tInsert (tasks : TaskMap) (k : String) (v : JObj) : TaskMap :=
  match tasks with
  | [] => [(k, v)]
  | (k', v') :: rest => if k' = k then (k, v) :: rest else (k', v') :: tInsert rest k v

/-- `del tasks[k]` on a Python dict. -/
def tRemove (tasks : TaskMap) (k : String) : TaskMap :=
  match tasks with
  | [] => []
  | (k', v') :: rest => if k' = k then rest else (k', v') :: tRemove rest k

/-- `_load_raw_data`: the parse of the backing file.  A missing, blank
or unparseable file and a non-object JSON value all give the empty map;
from a parsed object only the entries whose value is itself an object
are kept (`isinstance(value, dict)`); JSON object keys are already
strings, so the comprehension's `str(key)` is the identity. -/
def load_raw_data (d : Disk) : TaskMap :=
  match d.file with
  | none => []
  | some (.blank, _) => []
  | some (.unparseable, _) => []
  | some (.parsedVal v, _) =>
      match v with
      | .obj fields =>
          fields.filterMap fun kv =>
            match kv.2 with
            | .obj o => some (kv.1, o)
            | _ => none
      | _ => []

/-- `_serialize_data`: `json.dumps(data, indent=2, sort_keys=True)`,
modelled as rendering the recursively key-sorted value. -/
def serialize_data (tasks : TaskMap) : String :=
  renderJ (sortJ (.obj (tasks.map fun kv => (kv.1, .obj kv.2))))

/-- `_save_raw_data`: write the serialized map to a temporary sibling
file and `os.replace` it over the real path.  The composite is modelled
as the atomic replacement it implements: afterwards the backing file
holds exactly the written map (whose parse is its key-sorted normal
form) with the new modification time, and the temporary file is gone. -/
def save_raw_data (d : Disk) (tasks : TaskMap) (newMtime : Nat) : Disk :=
  { file := some (.parsedVal (sortJ (.obj (tasks.map fun kv => (kv.1, .obj kv.2)))), newMtime) }

/-- `_copy_dict_of_dicts`: the two-level defensive copy (`str(key)` is
the identity on the string keys). -/
def copy_dict_of_dicts (tasks : TaskMap) : TaskMap :=
  tasks.map fun kv => (kv.1, kv.2.map fun iv => (iv.1, iv.2))

/-- The file's current modification time: `None` when it does not exist. -/
def currentMtime (d : Disk) : Option Nat :=
  d.file.map (·.2)

/-- `_load_all`: return a copy of the cache when the cached modification
time equals the file's current one (Python's `None == None` is true, as
is `Option.beq none none`); otherwise read the file, refresh the cache
(copy of the map, its serialization, the current mtime) and return a
copy. -/
def load_all (m : StorageManager) (d : Disk) : TaskMap × StorageManager :=
  match m.cache with
  | some cached =>
      if m.cache_mtime == currentMtime d then
        (copy_dict_of_dicts cached, m)
      else
        loadFresh m d
  | none => loadFresh m d
where
  loadFresh (m : StorageManager) (d : Disk) : TaskMap × StorageManager :=
    let data := load_raw_data d
    let serialized := serialize_data data
    (copy_dict_of_dicts data,
      { m with
        cache := some (copy_dict_of_dicts data)
        cache_mtime := currentMtime d
        cache_serialized := some serialized })

/-- The entry-by-entry half of `_save_all`'s second skip check: every
entry of `data` is present in `existing` with an equal value
(`key not in existing or value != existing[key]` negated over the loop). -/
def sameEntries (data existing : TaskMap) : Bool :=
  data.all fun kv =>
    match tGet existing kv.1 with
    | some v => objEq kv.2 v
    | none => false

/-- `_save_all`: serialize the candidate map; skip the disk write when
the text equals the cached serialization (refreshing only the cache), or
when every candidate entry equals the cached one and the sizes agree
(refreshing cache and serialization); otherwise write atomically and
refresh cache, serialization and the file's new modification time. -/
def save_all (m : StorageManager) (d : Disk) (data : TaskMap) (newMtime : Nat) :
    StorageManager × Disk :=
  let serialized := serialize_data data
  let write : StorageManager × Disk :=
    let d' := save_raw_data d data newMtime
    ({ m with
        cache := some (copy_dict_of_dicts data)
        cache_serialized := some serialized
        cache_mtime := currentMtime d' }, d')
  let checkSame : StorageManager × Disk :=
    match m.cache with
    | some existing =>
        if sameEntries data existing && existing.length == data.length then
          ({ m with
              cache := some (copy_dict_of_dicts data)
              cache_serialized := some serialized }, d)
        else write
    | none => write
  match m.cache_serialized with
  | some cached =>
      if cached = serialized then
        ({ m with cache := some (copy_dict_of_dicts data) }, d)
      else checkSame
  | none => checkSame

/-- `save_task`: under the advisory lock, load the full map, insert or
overwrite the entry keyed by `str(task["id"])` and save the map back.
A record without an `"id"` key raises `KeyError` before any write. -/
def save_task (m : StorageManager) (d : Disk) (task : JObj) (newMtime : Nat) :
    Except PyError Unit × StorageManager × Disk :=
  let (tasks, m1) := load_all m d
  match jGet task "id" with
  | none => (.error (.keyError "id"), m1, d)
  | some idv =>
      let (m2, d2) := save_all m1 d (tInsert tasks (pyStr idv) task) newMtime
      (.ok (), m2, d2)

/-- `get_task`: load the full map and return the entry, raising
`KeyError` when the key is absent (`str(task_id)` is the identity on the
string argument). -/
def get_task (m : StorageManager) (d : Disk) (taskId : String) :
    Except PyError JObj × StorageManager :=
  let (tasks, m1) := load_all m d
  match tGet tasks taskId with
  | none => (.error (.keyError ("Task '" ++ taskId ++ "' not found")), m1)
  | some t => (.ok t, m1)

/-- The predicate of `list_tasks`' status filter:
`entry.get("status") == status`, which in Python is true exactly when
the entry holds that very string under `"status"`. -/
def hasStatus (entry : JObj) (status : String) : Bool :=
  match jGet entry "status" with
  | some (.str s) => s == status
  | _ => false

/-- The sort key of `list_tasks`: `task.get("created_at", "")`.  The
stored timestamps are ISO-8601 strings; a record with no `created_at`
keys on the empty string.  (Python would raise `TypeError` when sorting
a non-string value against a string; the model keys such a value on the
empty string as well, and every theorem about ordering only concerns
string-valued timestamps.) -/
def createdKey (entry : JObj) : String :=
  match jGet entry "created_at" with
  | some (.str s) => s
  | _ => ""

/-- `list_tasks`: load the full map, take the values in insertion
order, keep those matching the optional status filter, and sort them by
ascending `created_at` (Python's `list.sort` is stable; a stable
insertion sort models it). -/
def list_tasks (m : StorageManager) (d : Disk) (status : Option String) :
    List JObj × StorageManager :=
  let (tasks, m1) := load_all m d
  let results := tasks.map (·.2)
  let results :=
    match status with
    | none => results
    | some s => results.filter fun entry => hasStatus entry s
  (results.insertionSort fun a b => strLe (createdKey a) (createdKey b) = true, m1)

/-- `delete_task`: under the advisory lock, load the full map, raise
`KeyError` when the key is absent (leaving the backing file untouched),
otherwise remove the key and save the map back. -/
def delete_task (m : StorageManager) (d : Disk) (taskId : String) (newMtime : Nat) :
    Except PyError Unit × StorageManager × Disk :=
  let (tasks, m1) := load_all m d
  match tGet tasks taskId with
  | none => (.error (.keyError ("Task '" ++ taskId ++ "' not found")), m1, d)
  | some _ =>
      let (m2, d2) := save_all m1 d (tRemove tasks taskId) newMtime
      (.ok (), m2, d2)

/-! ## Transport client (`src/mcp_client.py`) -/

/-- The child process handle: `poll() is None` means still alive. -/
structure Proc where
  alive : Bool

/-- The client dictionary (the fields the lifecycle logic reads: the
process handle and the context-manager counter; the configured paths
and timeout feed the launch command and the wait, which are modelled as
external outcomes). -/
structure Client where
  process : Option Proc
  active_contexts : Nat

/-- The lifecycle steps `stop_client` performs on the process, recorded
as a trace: a graceful terminate signal, a timeout-bounded wait.  The
source never sends a forceful kill, so `kill` never occurs in a trace. -/
inductive StopAction where
  | terminate
  | wait
  | kill
  deriving DecidableEq

/-- `stop_client`: no running process is a no-op reporting `False`.
Otherwise send `terminate`; if the signal itself raises, treat the
process as gone and report `True`; then wait up to the timeout, and on
timeout also report `True` (no escalation to a kill); in every case the
process handle is cleared.  The two external outcomes (the signal
raising, the wait timing out) are parameters. -/
def stop_client (c : Client) (terminateRaises : Bool) (waitTimesOut : Bool) :
    Bool × Client × List StopAction :=
  match c.process with
  | none => (false, c, [])
  | some _ =>
      if terminateRaises then
        (true, { c with process := none }, [.terminate])
      else if waitTimesOut then
        (true, { c with process := none }, [.terminate, .wait])
      else
        (true, { c with process := none }, [.terminate, .wait])

/-- `_ensure_not_running`: raise when the held process still reports
alive, otherwise clear the handle. -/
def ensure_not_running (c : Client) : Except PyError Client :=
  match c.process with
  | some p =>
      if p.alive then .error (.runtimeError "MCP client already running")
      else .ok { c with process := none }
  | none => .ok { c with process := none }

/-- `start_client`: guard with `_ensure_not_running`, then launch the
child process.  The launch outcome is a parameter: `none` models the OS
refusing to create the process (`OSError`), wrapped in a runtime error. -/
def start_client (c : Client) (launch : Option Proc) :
    Except PyError Unit × Client :=
  match ensure_not_running c with
  | .error e => (.error e, c)
  | .ok c1 =>
      match launch with
      | none => (.error (.runtimeError "Failed to start MCP server"), c1)
      | some p => (.ok (), { c1 with process := some p })

/-- The closure state of the context manager returned by `use_client`. -/
structure CtxState where
  entered : Bool
  started : Bool

/-- The fresh context state `use_client` builds. -/
def use_client_init : CtxState :=
  { entered := false, started := false }

/-- `__enter__` of `use_client`'s context manager: fail when this
context was already entered or any context is active on the client;
otherwise mark entered, bump the active counter, start the process and
mark started.  On a launch failure the exception propagates with the
mutations made so far kept, exactly as in Python. -/
def use_client_enter (st : CtxState) (c : Client) (launch : Option Proc) :
    Except PyError Unit × CtxState × Client :=
  if st.entered then
    (.error (.runtimeError "Client context already in use"), st, c)
  else if c.active_contexts > 0 then
    (.error (.runtimeError "Client context already active"), st, c)
  else
    let st1 := { st with entered := true }
    let c1 := { c with active_contexts := c.active_contexts + 1 }
    match start_client c1 launch with
    | (.error e, c2) => (.error e, st1, c2)
    | (.ok (), c2) => (.ok (), { st1 with started := true }, c2)

/-- `__exit__` of `use_client`'s context manager: stop the process when
it was started, reset the counter and the entered flag, and return
`False` (never suppressing the body's exception).  The exception
information and the stop outcomes are parameters the code does not
branch on. -/
def use_client_exit (st : CtxState) (c : Client) (excRaised : Bool)
    (terminateRaises : Bool) (waitTimesOut : Bool) : CtxState × Client :=
  let (st1, c1) :=
    if st.started then
      let (_, c', _) := stop_client c terminateRaises waitTimesOut
      ({ st with started := false }, c')
    else (st, c)
  ({ st1 with entered := false }, { c1 with active_contexts := 0 })

/-- The response-processing tail of `invoke_tool`, as a function of the
JSON-RPC response object read from the child's stdout (building,
sending and reading the framed request are the I/O prefix).  An
`error` key fails with the error's `message` when the error is an
object carrying one, else a generic fallback; a missing or null
`result` fails as missing; an object `result` is copied and returned;
any other `result` is wrapped under `"value"`. -/
def invoke_tool (response : JObj) : Except PyError JObj :=
  if jMem response "error" then
    let error := (jGet response "error").getD .null
    let message :=
      match error with
      | .obj fields =>
          match jGet fields "message" with
          | some mv => pyStr mv
          | none => "MCP server returned an error"
      | _ => "MCP server returned an error"
    .error (.runtimeError message)
  else
    match jGet response "result" with
    | none => .error (.runtimeError "MCP server response missing result field")
    | some .null => .error (.runtimeError "MCP server response missing result field")
    | some (.obj fields) => .ok (fields.map fun kv => (kv.1, kv.2))
    | some v => .ok [("value", v)]

/-! ## Input validation (`src/job_manager.py`) -/

/-- `_validate_repository`: `None` and blank strings are rejected, and
the stripped string must contain a `/` (`"/" not in stripped` raises);
the stripped string is returned. -/
def validate_repository (repository : Option String) : Except PyError String :=
  match repository with
  | none => .error (.valueError "Repository is required")
  | some r =>
      let stripped := pyStrip r
      if stripped = "" then .error (.valueError "Repository cannot be blank")
      else if !(stripped.toList.contains '/') then
        .error (.valueError "Repository must include owner and name")
      else .ok stripped

/-! ## Supporting lemmas -/

theorem lexLe_cons_iff {x y : Char} {xs ys : List Char} :
    lexLe (x :: xs) (y :: ys) = true ↔
      x.toNat < y.toNat ∨ (x.toNat = y.toNat ∧ lexLe xs ys = true) := by
  simp only [lexLe]
  split
  · next h => simp [h]
  · next h =>
    split
    · next h' => simp; omega
    · next h' =>
      have : x.toNat = y.toNat := by omega
      simp [this]

theorem lexLe_trans : ∀ (a b c : List Char),
    lexLe a b = true → lexLe b c = true → lexLe a c = true := by
  intro a
  induction a with
  | nil => intro b c _ _; rfl
  | cons x xs ih =>
    intro b c hab hbc
    match b, c with
    | [], _ => exact absurd hab (by simp [lexLe])
    | y :: ys, [] => exact absurd hbc (by simp [lexLe])
    | y :: ys, z :: zs =>
      rw [lexLe_cons_iff] at hab hbc ⊢
      rcases hab with h1 | ⟨h1, h1'⟩
      · rcases hbc with h2 | ⟨h2, h2'⟩
        · exact Or.inl (by omega)
        · exact Or.inl (by omega)
      · rcases hbc with h2 | ⟨h2, h2'⟩
        · exact Or.inl (by omega)
        · exact Or.inr ⟨by omega, ih ys zs h1' h2'⟩

theorem lexLe_total : ∀ (a b : List Char), lexLe a b = true ∨ lexLe b a = true := by
  intro a
  induction a with
  | nil => intro b; exact Or.inl rfl
  | cons x xs ih =>
    intro b
    match b with
    | [] => exact Or.inr rfl
    | y :: ys =>
      rcases Nat.lt_trichotomy x.toNat y.toNat with h | h | h
      · exact Or.inl (lexLe_cons_iff.mpr (Or.inl h))
      · rcases ih ys with h' | h'
        · exact Or.inl (lexLe_cons_iff.mpr (Or.inr ⟨h, h'⟩))
        · exact Or.inr (lexLe_cons_iff.mpr (Or.inr ⟨h.symm, h'⟩))
      · exact Or.inr (lexLe_cons_iff.mpr (Or.inl h))

theorem strLe_trans {a b c : String} (hab : strLe a b = true) (hbc : strLe b c = true) :
    strLe a c = true :=
  lexLe_trans _ _ _ hab hbc

theorem strLe_total (a b : String) : strLe a b = true ∨ strLe b a = true :=
  lexLe_total _ _

theorem copy_dict_of_dicts_id (t : TaskMap) : copy_dict_of_dicts t = t := by
  unfold copy_dict_of_dicts
  have h : ∀ o : JObj, o.map (fun iv => (iv.1, iv.2)) = o := by
    intro o
    simp
  simp [h]

theorem tGet_tInsert_self (t : TaskMap) (k : String) (v : JObj) :
    tGet (tInsert t k v) k = some v := by
  induction t with
  | nil => simp [tInsert, tGet]
  | cons kv rest ih =>
    obtain ⟨k', v'⟩ := kv
    by_cases h : k' = k
    · simp [tInsert, tGet, h]
    · simp [tInsert, tGet, h, ih]

theorem load_all_snd_cache (m : StorageManager) (d : Disk) :
    (load_all m d).2.cache = some (load_all m d).1 := by
  unfold load_all
  match hm : m.cache with
  | some cached =>
    simp only
    split
    · simp [hm, copy_dict_of_dicts_id]
    · simp [load_all.loadFresh, copy_dict_of_dicts_id]
  | none => simp [load_all.loadFresh, copy_dict_of_dicts_id]

theorem load_all_snd_mtime (m : StorageManager) (d : Disk) :
    (load_all m d).2.cache_mtime = currentMtime d := by
  unfold load_all
  match hm : m.cache with
  | some cached =>
    simp only
    split
    · next h => exact beq_iff_eq.mp h
    · simp [load_all.loadFresh]
  | none => simp [load_all.loadFresh]

theorem load_all_hit (m : StorageManager) (d : Disk) (t : TaskMap)
    (hc : m.cache = some t) (hm : m.cache_mtime = currentMtime d) :
    load_all m d = (t, m) := by
  unfold load_all
  rw [hc]
  simp [hm, copy_dict_of_dicts_id]

theorem save_all_state (m : StorageManager) (d : Disk) (data : TaskMap) (mt : Nat)
    (hm : m.cache_mtime = currentMtime d) :
    (save_all m d data mt).1.cache = some data ∧
    (save_all m d data mt).1.cache_mtime = currentMtime (save_all m d data mt).2 := by
  unfold save_all
  simp only
  split
  · next cached hcs =>
    split
    · simp [copy_dict_of_dicts_id, hm]
    · split
      · next existing hc =>
        split
        · simp [copy_dict_of_dicts_id, hm]
        · simp [copy_dict_of_dicts_id, save_raw_data, currentMtime]
      · next hc => simp [copy_dict_of_dicts_id, save_raw_data, currentMtime]
  · next hcs =>
    split
    · next existing hc =>
      split
      · simp [copy_dict_of_dicts_id, hm]
      · simp [copy_dict_of_dicts_id, save_raw_data, currentMtime]
    · next hc => simp [copy_dict_of_dicts_id, save_raw_data, currentMtime]

/-! ## Claim theorems -/

/-- C1: for every JSON-RPC response object processed by `invoke_tool`:
a response with an `error` field fails with a runtime error carrying the
error object's `message` when present and a generic fallback otherwise;
with no `error` and no `result` field it fails as missing-result; an
object `result` is returned unchanged; a non-null scalar `result` `v` is
returned as `{"value": v}` (a null `result` takes the missing-result
branch, proved separately for C10). -/
theorem invoke_tool_response_spec (response : JObj) :
    (∀ efields mv, jGet response "error" = some (.obj efields) →
      jGet efields "message" = some mv →
      invoke_tool response = .error (.runtimeError (pyStr mv))) ∧
    (∀ efields, jGet response "error" = some (.obj efields) →
      jGet efields "message" = none →
      invoke_tool response = .error (.runtimeError "MCP server returned an error")) ∧
    (∀ e, jGet response "error" = some e → e.isObj = false →
      invoke_tool response = .error (.runtimeError "MCP server returned an error")) ∧
    (jGet response "error" = none → jGet response "result" = none →
      invoke_tool response = .error (.runtimeError "MCP server response missing result field")) ∧
    (∀ fields, jGet response "error" = none → jGet response "result" = some (.obj fields) →
      invoke_tool response = .ok fields) ∧
    (∀ v, jGet response "error" = none → jGet response "result" = some v →
      v.isObj = false → v ≠ .null → invoke_tool response = .ok [("value", v)]) := by
  refine ⟨?_, ?_, ?_, ?_, ?_, ?_⟩
  · intro efields mv h1 h2
    simp [invoke_tool, jMem, h1, h2]
  · intro efields h1 h2
    simp [invoke_tool, jMem, h1, h2]
  · intro e h1 h2
    cases e <;> simp_all [invoke_tool, jMem, JValue.isObj]
  · intro h1 h2
    simp [invoke_tool, jMem, h1, h2]
  · intro fields h1 h2
    simp [invoke_tool, jMem, h1, h2]
  · intro v h1 h2 h3 h4
    cases v <;> simp_all [invoke_tool, jMem, JValue.isObj]

/-- Witness for C1 at concrete responses: a reported error message is
surfaced, an object result is passed through, a scalar result is
wrapped. -/
theorem invoke_tool_response_spec_witness :
    invoke_tool [("error", .obj [("message", .str "X")])] = .error (.runtimeError "X") ∧
    invoke_tool [("result", .obj [("a", .num 1)])] = .ok [("a", .num 1)] ∧
    invoke_tool [("result", .num 5)] = .ok [("value", .num 5)] :=
  ⟨(invoke_tool_response_spec _).1 [("message", .str "X")] (.str "X") rfl rfl,
   (invoke_tool_response_spec _).2.2.2.2.1 [("a", .num 1)] rfl rfl,
   (invoke_tool_response_spec _).2.2.2.2.2 (.num 5) rfl rfl rfl
     (fun h => JValue.noConfusion h)⟩

/-- C10: a response with no `error` field whose `result` key is present
holding JSON null takes the missing-result failure branch — the check is
on the value being `None`, not only on the key's absence. -/
theorem invoke_tool_null_result (response : JObj)
    (he : jGet response "error" = none)
    (hr : jGet response "result" = some .null) :
    invoke_tool response =
      .error (.runtimeError "MCP server response missing result field") := by
  simp [invoke_tool, jMem, he, hr]

/-- Witness for C10: the concrete response `{"result": null}`. -/
theorem invoke_tool_null_result_witness :
    jGet [("result", JValue.null)] "error" = none ∧
    jGet [("result", JValue.null)] "result" = some .null ∧
    invoke_tool [("result", JValue.null)] =
      .error (.runtimeError "MCP server response missing result field") :=
  ⟨rfl, rfl, invoke_tool_null_result _ rfl rfl⟩

/-- Counterexample to C6 as stated: the repository string `"a/b/c"`,
whose stripped form contains two slashes, is accepted by
`_validate_repository`, not rejected. -/
theorem validate_repository_counterexample :
    validate_repository (some "a/b/c") = .ok "a/b/c" ∧
    "a/b/c".toList.count '/' = 2 :=
  ⟨rfl, rfl⟩

/-- C6 amended: a repository string is accepted exactly when its
stripped form is nonempty and contains at least one slash (more than
one slash is allowed), and the accepted value is the stripped string. -/
theorem validate_repository_amended (r : String) :
    ((∃ s, validate_repository (some r) = .ok s) ↔
      (pyStrip r ≠ "" ∧ (pyStrip r).toList.contains '/' = true)) ∧
    (∀ s, validate_repository (some r) = .ok s → s = pyStrip r) := by
  have hmem : ((pyStrip r).toList.contains '/' = true) ↔ '/' ∈ (pyStrip r).data := by
    simp [String.toList]
  constructor
  · constructor
    · rintro ⟨s, hs⟩
      by_cases h1 : pyStrip r = ""
      · simp [validate_repository, h1] at hs
      · by_cases h2 : '/' ∈ (pyStrip r).data
        · exact ⟨h1, hmem.mpr h2⟩
        · simp [validate_repository, h1, h2] at hs
    · rintro ⟨h1, h2⟩
      exact ⟨pyStrip r, by simp [validate_repository, h1, hmem.mp h2]⟩
  · intro s hs
    by_cases h1 : pyStrip r = ""
    · simp [validate_repository, h1] at hs
    · by_cases h2 : '/' ∈ (pyStrip r).data
      · simp [validate_repository, h1, h2] at hs
        exact hs.symm
      · simp [validate_repository, h1, h2] at hs

/-- Witness for the amended C6: a padded `owner/name` string is
accepted as its stripped form. -/
theorem validate_repository_amended_witness :
    validate_repository (some " owner/name ") = .ok "owner/name" := by
  obtain ⟨s, hs⟩ := (validate_repository_amended " owner/name ").1.mpr ⟨by decide, by decide⟩
  have h := (validate_repository_amended " owner/name ").2 s hs
  rw [h] at hs
  exact hs

/-- C8: `stop_client` on a running process reports success and clears
the handle whatever the outcomes of the terminate signal and the
timeout-bounded wait, and never escalates to a kill; with no running
process it is a no-op reporting `False`. -/
theorem stop_client_spec (c : Client) (p : Proc) (tf wt : Bool) :
    (c.process = some p →
      (stop_client c tf wt).1 = true ∧
      (stop_client c tf wt).2.1 = { c with process := none } ∧
      StopAction.kill ∉ (stop_client c tf wt).2.2) ∧
    (c.process = none → stop_client c tf wt = (false, c, [])) := by
  constructor
  · intro h
    cases tf <;> cases wt <;> simp [stop_client, h]
  · intro h
    simp [stop_client, h]

/-- Witness for C8: a client holding a live process, with the terminate
signal raising and the wait timing out; and a client with no process. -/
theorem stop_client_spec_witness :
    (stop_client ⟨some ⟨true⟩, 0⟩ true true).1 = true ∧
    (stop_client ⟨some ⟨true⟩, 0⟩ true true).2.1 = ⟨none, 0⟩ ∧
    StopAction.kill ∉ (stop_client ⟨some ⟨true⟩, 0⟩ true true).2.2 ∧
    stop_client ⟨none, 5⟩ false false = (false, ⟨none, 5⟩, []) := by
  have h1 := (stop_client_spec ⟨some ⟨true⟩, 0⟩ ⟨true⟩ true true).1 rfl
  have h2 := (stop_client_spec ⟨none, 5⟩ ⟨true⟩ false false).2 rfl
  exact ⟨h1.1, h1.2.1, h1.2.2, h2⟩

/-- C7: the context manager of `use_client` admits at most one active
session: entering while already entered, or while any context is active
on the client, fails rather than queueing; a successful entry starts the
process; and exiting (with or without an exception, and whatever the
stop outcomes) stops the process, resets the state, and lets a new
session be entered. -/
theorem use_client_session_spec (st : CtxState) (c : Client) (launch : Option Proc)
    (p q : Proc) (exc tf wt : Bool) :
    (st.entered = true →
      (use_client_enter st c launch).1 =
        .error (.runtimeError "Client context already in use")) ∧
    (st.entered = false → 0 < c.active_contexts →
      (use_client_enter st c launch).1 =
        .error (.runtimeError "Client context already active")) ∧
    (st.entered = false → c.active_contexts = 0 → c.process = none →
      use_client_enter st c (some p) =
        (.ok (), ⟨true, true⟩, { c with active_contexts := 1, process := some p })) ∧
    (st.started = true →
      use_client_exit st c exc tf wt =
        (⟨false, false⟩, { c with process := none, active_contexts := 0 })) ∧
    (st.started = true →
      (use_client_enter (use_client_exit st c exc tf wt).1
        (use_client_exit st c exc tf wt).2 (some q)).1 = .ok ()) := by
  obtain ⟨cproc, cact⟩ := c
  obtain ⟨ent, srt⟩ := st
  refine ⟨?_, ?_, ?_, ?_, ?_⟩
  · intro h
    simp only at h
    simp [use_client_enter, h]
  · intro h h'
    simp only at h
    simp [use_client_enter, h, h', Nat.pos_iff_ne_zero.mp h']
  · intro h1 h2 h3
    simp only at h1 h2 h3
    subst h1 h2 h3
    simp [use_client_enter, start_client, ensure_not_running]
  · intro h
    simp only at h
    subst h
    cases hp : cproc with
    | none => cases tf <;> cases wt <;> simp [use_client_exit, stop_client]
    | some pr => cases tf <;> cases wt <;> simp [use_client_exit, stop_client]
  · intro h
    simp only at h
    subst h
    cases hp : cproc with
    | none =>
      cases tf <;> cases wt <;>
        simp [use_client_exit, stop_client, use_client_enter, start_client,
          ensure_not_running]
    | some pr =>
      cases tf <;> cases wt <;>
        simp [use_client_exit, stop_client, use_client_enter, start_client,
          ensure_not_running]

/-- Witness for C7: a full session on a fresh client (enter starts the
process, exit stops it and a second session can start), and a rejected
re-entry on an already-entered context. -/
theorem use_client_session_spec_witness :
    (use_client_enter ⟨true, false⟩ ⟨none, 0⟩ none).1 =
      .error (.runtimeError "Client context already in use") ∧
    use_client_enter ⟨false, false⟩ ⟨none, 0⟩ (some ⟨true⟩) =
      (.ok (), ⟨true, true⟩, ⟨some ⟨true⟩, 1⟩) ∧
    use_client_exit ⟨true, true⟩ ⟨some ⟨true⟩, 1⟩ true true false =
      (⟨false, false⟩, ⟨none, 0⟩) ∧
    (use_client_enter (use_client_exit ⟨true, true⟩ ⟨some ⟨true⟩, 1⟩ false false true).1
      (use_client_exit ⟨true, true⟩ ⟨some ⟨true⟩, 1⟩ false false true).2
      (some ⟨true⟩)).1 = .ok () := by
  have h1 := (use_client_session_spec ⟨true, false⟩ ⟨none, 0⟩ none ⟨true⟩ ⟨true⟩
    false false false).1 rfl
  have h2 := (use_client_session_spec ⟨false, false⟩ ⟨none, 0⟩ none ⟨true⟩ ⟨true⟩
    false false false).2.2.1 rfl rfl rfl
  have h3 := (use_client_session_spec ⟨true, true⟩ ⟨some ⟨true⟩, 1⟩ none ⟨true⟩ ⟨true⟩
    true true false).2.2.2.1 rfl
  have h4 := (use_client_session_spec ⟨true, true⟩ ⟨some ⟨true⟩, 1⟩ none ⟨true⟩ ⟨true⟩
    false false true).2.2.2.2 rfl
  exact ⟨h1, h2, h3, h4⟩

/-- C2: saving a task record that carries an `"id"` field and then
getting it back by that identifier succeeds and returns the record
unchanged, whatever the store's prior cache and file contents. -/
theorem save_then_get_roundtrip (m : StorageManager) (d : Disk) (task : JObj)
    (tid : String) (mt : Nat) (hid : jGet task "id" = some (.str tid)) :
    (save_task m d task mt).1 = .ok () ∧
    (get_task (save_task m d task mt).2.1 (save_task m d task mt).2.2 tid).1 =
      .ok task := by
  rcases hload : load_all m d with ⟨tasks, m1⟩
  have hmt : m1.cache_mtime = currentMtime d := by
    have h := load_all_snd_mtime m d
    rw [hload] at h
    exact h
  rcases hsave : save_all m1 d (tInsert tasks tid task) mt with ⟨m2, d2⟩
  have hstate := save_all_state m1 d (tInsert tasks tid task) mt hmt
  rw [hsave] at hstate
  have hhit := load_all_hit m2 d2 (tInsert tasks tid task) hstate.1 hstate.2
  constructor
  · simp [save_task, hload, hid, pyStr, hsave]
  · simp [save_task, hload, hid, pyStr, hsave, get_task, hhit, tGet_tInsert_self]

/-- Witness for C2: a fresh store, the record `{"id": "t1"}`. -/
theorem save_then_get_roundtrip_witness :
    jGet [("id", JValue.str "t1")] "id" = some (.str "t1") ∧
    (save_task ⟨none, none, none⟩ ⟨none⟩ [("id", JValue.str "t1")] 7).1 = .ok () ∧
    (get_task (save_task ⟨none, none, none⟩ ⟨none⟩ [("id", JValue.str "t1")] 7).2.1
      (save_task ⟨none, none, none⟩ ⟨none⟩ [("id", JValue.str "t1")] 7).2.2 "t1").1 =
      .ok [("id", JValue.str "t1")] := by
  have h := save_then_get_roundtrip ⟨none, none, none⟩ ⟨none⟩
    [("id", JValue.str "t1")] "t1" 7 rfl
  exact ⟨rfl, h.1, h.2⟩

/-- C4: getting or deleting an identifier absent from the store fails
with the `KeyError` not-found kind (distinct by construction from the
other error kinds), and a failed delete leaves the backing file
untouched (`get_task` never writes at all). -/
theorem get_delete_not_found (m : StorageManager) (d : Disk) (tid : String) (mt : Nat)
    (h : tGet (load_all m d).1 tid = none) :
    (get_task m d tid).1 = .error (.keyError ("Task '" ++ tid ++ "' not found")) ∧
    (delete_task m d tid mt).1 =
      .error (.keyError ("Task '" ++ tid ++ "' not found")) ∧
    (delete_task m d tid mt).2.2 = d := by
  rcases hload : load_all m d with ⟨tasks, m1⟩
  rw [hload] at h
  simp only at h
  refine ⟨?_, ?_, ?_⟩ <;> simp [get_task, delete_task, hload, h]

/-- Witness for C4: a fresh empty store and the identifier `"zz"`. -/
theorem get_delete_not_found_witness :
    tGet (load_all ⟨none, none, none⟩ ⟨none⟩).1 "zz" = none ∧
    (get_task ⟨none, none, none⟩ ⟨none⟩ "zz").1 =
      .error (.keyError ("Task '" ++ "zz" ++ "' not found")) ∧
    (delete_task ⟨none, none, none⟩ ⟨none⟩ "zz" 3).1 =
      .error (.keyError ("Task '" ++ "zz" ++ "' not found")) ∧
    (delete_task ⟨none, none, none⟩ ⟨none⟩ "zz" 3).2.2 = ⟨none⟩ := by
  have h := get_delete_not_found ⟨none, none, none⟩ ⟨none⟩ "zz" 3 rfl
  exact ⟨rfl, h.1, h.2.1, h.2.2⟩

/-- C5: a missing, blank or unparseable backing file and a parsed
non-object value all load as the empty map (and a fresh store lists
nothing on them, without raising); from a parsed object exactly the
entries whose value is itself an object survive. -/
theorem load_raw_data_spec (mt : Nat) (v : JValue) (fields : List (String × JValue)) :
    load_raw_data ⟨none⟩ = [] ∧
    load_raw_data ⟨some (.blank, mt)⟩ = [] ∧
    load_raw_data ⟨some (.unparseable, mt)⟩ = [] ∧
    (v.isObj = false → load_raw_data ⟨some (.parsedVal v, mt)⟩ = []) ∧
    (∀ k o, (k, o) ∈ load_raw_data ⟨some (.parsedVal (.obj fields), mt)⟩ ↔
      (k, JValue.obj o) ∈ fields) ∧
    (list_tasks ⟨none, none, none⟩ ⟨none⟩ none).1 = [] ∧
    (list_tasks ⟨none, none, none⟩ ⟨some (.blank, mt)⟩ none).1 = [] ∧
    (list_tasks ⟨none, none, none⟩ ⟨some (.unparseable, mt)⟩ none).1 = [] ∧
    (v.isObj = false →
      (list_tasks ⟨none, none, none⟩ ⟨some (.parsedVal v, mt)⟩ none).1 = []) := by
  refine ⟨rfl, rfl, rfl, ?_, ?_, rfl, rfl, rfl, ?_⟩
  · intro h
    cases v <;> simp_all [load_raw_data, JValue.isObj]
  · intro k o
    simp only [load_raw_data, List.mem_filterMap]
    constructor
    · rintro ⟨⟨k', v'⟩, hmem, heq⟩
      cases v' <;> simp at heq
      obtain ⟨hk, ho⟩ := heq
      subst hk
      subst ho
      exact hmem
    · intro h
      exact ⟨(k, .obj o), h, rfl⟩
  · intro h
    cases v <;> simp_all [list_tasks, load_all, load_all.loadFresh, load_raw_data,
      copy_dict_of_dicts, JValue.isObj, List.insertionSort]

/-- Witness for C5 at a parsed object holding one object entry and one
string entry: the object entry survives, the string entry is dropped. -/
theorem load_raw_data_spec_witness :
    (("a", [("x", JValue.num 1)]) ∈
      load_raw_data ⟨some (.parsedVal (.obj [("a", .obj [("x", .num 1)]), ("b", .str "s")]), 4)⟩) ∧
    (("b", ([] : JObj)) ∉
      load_raw_data ⟨some (.parsedVal (.obj [("a", .obj [("x", .num 1)]), ("b", .str "s")]), 4)⟩) ∧
    JValue.isObj (.str "s") = false ∧
    load_raw_data ⟨some (.parsedVal (.str "s"), 4)⟩ = [] ∧
    (list_tasks ⟨none, none, none⟩ ⟨some (.parsedVal (.str "s"), 4)⟩ none).1 = [] := by
  have h := load_raw_data_spec 4 (.str "s")
    [("a", .obj [("x", .num 1)]), ("b", .str "s")]
  refine ⟨?_, ?_, rfl, h.2.2.2.1 rfl, h.2.2.2.2.2.2.2.2 rfl⟩
  · exact (h.2.2.2.2.1 "a" [("x", JValue.num 1)]).mpr (by simp)
  · intro hmem
    have := (h.2.2.2.2.1 "b" ([] : JObj)).mp hmem
    simp at this

/-- C9: with a populated cache, `_save_all` skips the disk write — the
backing file keeps its bytes and modification time — exactly when the
serialization equals the cached one or the candidate map passes the
entry-by-entry sameness check against the cached map, still refreshing
the in-memory cache; in every other case the file is atomically
replaced with the serialized map and the cache (map, serialization,
modification time) is refreshed. -/
theorem save_all_frame (m : StorageManager) (d : Disk) (data : TaskMap) (mt : Nat)
    (e : TaskMap) (cs : String) (hc : m.cache = some e)
    (hs : m.cache_serialized = some cs) :
    ((cs = serialize_data data ∨
        (sameEntries data e && e.length == data.length) = true) →
      (save_all m d data mt).2 = d ∧
      (save_all m d data mt).1.cache = some data) ∧
    (¬(cs = serialize_data data ∨
        (sameEntries data e && e.length == data.length) = true) →
      (save_all m d data mt).2 = save_raw_data d data mt ∧
      (save_all m d data mt).1.cache = some data ∧
      (save_all m d data mt).1.cache_serialized = some (serialize_data data) ∧
      (save_all m d data mt).1.cache_mtime = some mt) := by
  constructor
  · intro h
    by_cases h1 : cs = serialize_data data
    · simp [save_all, hc, hs, h1, copy_dict_of_dicts_id]
    · have h2 := h.resolve_left h1
      simp [save_all, hc, hs, h1, h2, copy_dict_of_dicts_id]
  · intro h
    push_neg at h
    obtain ⟨h1, h2⟩ := h
    simp [save_all, hc, hs, h1, h2, copy_dict_of_dicts_id, save_raw_data, currentMtime]

/-- Witness for C9: a cache whose serialization matches the candidate
(no write), and a cache that matches neither way (write). -/
theorem save_all_frame_witness :
    (save_all ⟨some [("a", [])], some 0, some (serialize_data [])⟩
      ⟨some (.blank, 0)⟩ [] 9).2 = (⟨some (.blank, 0)⟩ : Disk) ∧
    (save_all ⟨some [("a", [])], some 0, some (serialize_data [])⟩
      ⟨some (.blank, 0)⟩ [] 9).1.cache = some [] ∧
    (save_all ⟨some [("a", [])], some 0, some ""⟩ ⟨some (.blank, 0)⟩ [] 9).2 =
      save_raw_data ⟨some (.blank, 0)⟩ [] 9 ∧
    (save_all ⟨some [("a", [])], some 0, some ""⟩ ⟨some (.blank, 0)⟩ [] 9).1.cache_mtime =
      some 9 := by
  have hskip := (save_all_frame ⟨some [("a", [])], some 0, some (serialize_data [])⟩
    ⟨some (.blank, 0)⟩ [] 9 [("a", [])] (serialize_data []) rfl rfl).1 (Or.inl rfl)
  have hwrite := (save_all_frame ⟨some [("a", [])], some 0, some ""⟩
    ⟨some (.blank, 0)⟩ [] 9 [("a", [])] "" rfl rfl).2 (by decide)
  exact ⟨hskip.1, hskip.2, hwrite.1, hwrite.2.2.2⟩

/-- C3: `list_tasks` returns a permutation of the stored records — all
of them with no filter, exactly those whose `status` field equals the
filter string otherwise — sorted ascending by the `created_at` key
under lexicographic string comparison. -/
theorem list_tasks_spec (m : StorageManager) (d : Disk) (status : Option String) :
    (list_tasks m d status).1.Pairwise
      (fun a b => strLe (createdKey a) (createdKey b) = true) ∧
    (status = none →
      (list_tasks m d status).1.Perm ((load_all m d).1.map (·.2))) ∧
    (∀ s, status = some s →
      (list_tasks m d status).1.Perm
        (((load_all m d).1.map (·.2)).filter fun entry => hasStatus entry s)) := by
  rcases hload : load_all m d with ⟨tasks, m1⟩
  haveI : IsTotal JObj (fun a b => strLe (createdKey a) (createdKey b) = true) :=
    ⟨fun a b => strLe_total _ _⟩
  haveI : IsTrans JObj (fun a b => strLe (createdKey a) (createdKey b) = true) :=
    ⟨fun a b c => strLe_trans⟩
  refine ⟨?_, ?_, ?_⟩
  · cases status <;>
      simpa [list_tasks, hload] using
        List.sorted_insertionSort (fun a b => strLe (createdKey a) (createdKey b) = true) _
  · rintro rfl
    simpa [list_tasks, hload] using
      List.perm_insertionSort (fun a b => strLe (createdKey a) (createdKey b) = true) _
  · rintro s rfl
    simpa [list_tasks, hload] using
      List.perm_insertionSort (fun a b => strLe (createdKey a) (createdKey b) = true) _

/-- Witness for C3: a store of two records with distinct statuses and
timestamps, listed with no filter and with the filter `"completed"`. -/
theorem list_tasks_spec_witness :
    (list_tasks ⟨none, none, none⟩
      ⟨some (.parsedVal (.obj
        [("t1", .obj [("status", .str "pending"), ("created_at", .str "2025-01-01")]),
         ("t2", .obj [("status", .str "completed"), ("created_at", .str "2025-01-02")])]), 0)⟩
      none).1.Perm
      ((load_all ⟨none, none, none⟩
        ⟨some (.parsedVal (.obj
          [("t1", .obj [("status", .str "pending"), ("created_at", .str "2025-01-01")]),
           ("t2", .obj [("status", .str "completed"), ("created_at", .str "2025-01-02")])]), 0)⟩).1.map
        (·.2)) ∧
    (list_tasks ⟨none, none, none⟩
      ⟨some (.parsedVal (.obj
        [("t1", .obj [("status", .str "pending"), ("created_at", .str "2025-01-01")]),
         ("t2", .obj [("status", .str "completed"), ("created_at", .str "2025-01-02")])]), 0)⟩
      (some "completed")).1.Perm
      (((load_all ⟨none, none, none⟩
        ⟨some (.parsedVal (.obj
          [("t1", .obj [("status", .str "pending"), ("created_at", .str "2025-01-01")]),
           ("t2", .obj [("status", .str "completed"), ("created_at", .str "2025-01-02")])]), 0)⟩).1.map
        (·.2)).filter fun entry => hasStatus entry "completed") :=
  ⟨(list_tasks_spec _ _ none).2.1 rfl,
   (list_tasks_spec _ _ (some "completed")).2.2 "completed" rfl⟩
